import Mathlib

/-
Verification of the quantum particle-in-a-box simulation engine
(src/simulator.py, with field generators from src/simulator.py and
src/utils.py).

Modelling conventions:
* Python floats are modelled by exact rationals wherever the code does
  field arithmetic and comparisons (grid, potential arrays, the kinetic
  and Hamiltonian matrices, the clock), and by real / complex numbers
  where the code takes square roots or holds wavefunction amplitudes.
* The mutable simulator object is a record; each mutating method is a
  function returning the state after the call together with the Python
  exception it raised, if any (a method that raises mid-body returns the
  partially mutated state, exactly as the Python object would be left).
* scipy.sparse.linalg.expm_multiply is an external library routine; the
  step function takes it as an explicit functional parameter E, so every
  theorem below quantifies over the numerical routine actually used.
-/

namespace PBox

/-- Python exceptions that the modelled code paths can raise. -/
inductive PyError where
  | valueError (msg : String)
  | typeError (msg : String)
  | zeroDivisionError
  deriving DecidableEq, Repr

/-- The error raised by QuantumSimulator.step when psi is None. -/
def uninitializedError : PyError := .valueError "Initial wavefunction not set"

/-- Message of the TypeError numpy raises for np.abs(None). -/
def absNoneMsg : String := "bad operand type for abs"

/-- Message of the TypeError raised when a non-callable potential is called. -/
def notCallableMsg : String := "ndarray object is not callable"

/-- Message of the ValueError scipy.sparse.diags raises on a length mismatch. -/
def diagMsg : String := "Diagonal length does not agree with matrix size"

/-- Message of the ValueError numpy raises for np.ones of a negative size. -/
def negDimMsg : String := "negative dimensions are not allowed"

/-- An argument acceptable where the code branches on callable(...):
either a raw array or a function to be applied to the grid. -/
inductive PotInput where
  | arr (v : List ℚ)
  | fn (f : ℚ → ℚ)

/-- np.linspace(0, L, N): N points from 0 to L with spacing L/(N-1). -/
def linspace (L : ℚ) (N : ℕ) : List ℚ :=
  (List.range N).map fun i : ℕ => (i : ℚ) * (L / ((N : ℚ) - 1))

/-- The unscaled tridiagonal stencil diags([1, -2, 1], [-1, 0, 1]). -/
def tridiag (N : ℕ) : Matrix (Fin N) (Fin N) ℚ :=
  Matrix.of fun i j =>
    if (i : ℕ) = (j : ℕ) then -2
    else if (i : ℕ) + 1 = (j : ℕ) ∨ (j : ℕ) + 1 = (i : ℕ) then 1
    else 0

/-- scipy.sparse.diags(v, shape=(N, N)): diagonal matrix from a list,
raising ValueError when the list length disagrees with the shape. -/
def diagsQ (v : List ℚ) (N : ℕ) : Except PyError (Matrix (Fin N) (Fin N) ℚ) :=
  if v.length = N then .ok (Matrix.diagonal fun i => v.getD i.val 0)
  else .error (.valueError diagMsg)

/-- The simulator state: the fields of the Python QuantumSimulator object.
V, psi and history hold plain lists because the Python code never checks
their lengths on assignment. -/
structure QuantumSimulator (N : ℕ) where
  L : ℚ
  m : ℚ
  hbar : ℚ
  dt : ℚ
  dx : ℚ
  x : List ℚ
  V : List ℚ
  T : Matrix (Fin N) (Fin N) ℚ
  H : Matrix (Fin N) (Fin N) ℚ
  U_matrix : Option Unit
  psi : Option (List ℂ)
  time : ℚ
  history : List (List ℂ)

/-- The state assembled by the body of QuantumSimulator.__init__ once no
exception is raised, given the already-computed potential array. -/
def initState (L m hbar dt : ℚ) (N : ℕ) (V0 : List ℚ) : QuantumSimulator N :=
  let dx := L / ((N : ℚ) - 1)
  let kinetic_coeff := -hbar ^ 2 / (2 * m * dx ^ 2)
  let T := kinetic_coeff • tridiag N
  { L := L, m := m, hbar := hbar, dt := dt, dx := dx
    x := linspace L N, V := V0
    T := T, H := T + Matrix.diagonal (fun i => V0.getD i.val 0)
    U_matrix := none, psi := none, time := 0, history := [] }

/-- The line self.V = np.zeros(N) if potential is None else potential(self.x):
a None potential defaults to zeros, a function is applied to the grid, and a
raw array raises a TypeError because it is called. -/
def pyV (pot : Option PotInput) (x : List ℚ) (N : ℕ) : Except PyError (List ℚ) :=
  match pot with
  | none => .ok (List.replicate N 0)
  | some (.fn f) => .ok (x.map f)
  | some (.arr _) => .error (.typeError notCallableMsg)

/-- QuantumSimulator.__init__. The guards reproduce, in source order, the
exceptions Python raises: dx = L/(N-1) divides by zero when N = 1; the
potential line may raise a TypeError; the kinetic coefficient divides by
zero when 2*m*dx^2 = 0; np.ones(N-1) rejects a negative size when N = 0.
No parameter validation of any other kind is performed. -/
def init (L m hbar dt : ℚ) (N : ℕ) (pot : Option PotInput) :
    Except PyError (QuantumSimulator N) :=
  if N = 1 then .error .zeroDivisionError
  else
    match pyV pot (linspace L N) N with
    | .error e => .error e
    | .ok V0 =>
      if 2 * m * (L / ((N : ℚ) - 1)) ^ 2 = 0 then .error .zeroDivisionError
      else if N = 0 then .error (.valueError negDimMsg)
      else .ok (initState L m hbar dt N V0)

/-- Boolean success test for a modelled Python call. -/
def okB {α : Type _} : Except PyError α → Bool
  | .ok _ => true
  | .error _ => false

/-- Sum of |c|^2 over a complex list, np.sum(np.abs(psi0)**2). -/
noncomputable def normSqSum (l : List ℂ) : ℝ :=
  (l.map Complex.normSq).sum

/-- QuantumSimulator.set_initial_wavefunction: divide by the square root of
(sum of |psi0_i|^2) * dx, install the result, zero the clock, and restart
the history with a copy of the installed state. The method contains no
raise and numpy division does not raise, so the error slot is always none. -/
noncomputable def set_initial_wavefunction {N : ℕ} (s : QuantumSimulator N)
    (psi0 : List ℂ) : QuantumSimulator N × Option PyError :=
  let nrm : ℝ := Real.sqrt (normSqSum psi0 * (s.dx : ℝ))
  let psi := psi0.map fun c => c / (nrm : ℂ)
  ({ s with psi := some psi, time := 0, history := [psi] }, none)

/-- The matrix -1j * H * dt / hbar handed to expm_multiply. -/
noncomputable def propagator_arg {N : ℕ} (s : QuantumSimulator N) :
    Matrix (Fin N) (Fin N) ℂ :=
  (-Complex.I * (s.dt : ℂ) / (s.hbar : ℂ)) • s.H.map fun q => (q : ℂ)

/-- QuantumSimulator.step, parametrized by the external routine E standing
for scipy.sparse.linalg.expm_multiply. Raises when psi is None; otherwise
replaces psi, advances the clock by dt and appends a copy to history. -/
noncomputable def step {N : ℕ}
    (E : Matrix (Fin N) (Fin N) ℂ → List ℂ → List ℂ)
    (s : QuantumSimulator N) : QuantumSimulator N × Option PyError :=
  match s.psi with
  | none => (s, some uninitializedError)
  | some p =>
    let p2 := E (propagator_arg s) p
    ({ s with
        psi := some p2
        time := s.time + s.dt
        history := s.history ++ [p2] }, none)

/-- n successive calls of step, keeping the state component. -/
noncomputable def stepN {N : ℕ}
    (E : Matrix (Fin N) (Fin N) ℂ → List ℂ → List ℂ) :
    ℕ → QuantumSimulator N → QuantumSimulator N
  | 0, s => s
  | n + 1, s => stepN E n (step E s).1

/-- The loop body of QuantumSimulator.evolve: run n steps, aborting with
the exception of the first failing step (exception propagation). -/
noncomputable def evolveAux {N : ℕ}
    (E : Matrix (Fin N) (Fin N) ℂ → List ℂ → List ℂ) :
    ℕ → QuantumSimulator N → QuantumSimulator N × Option PyError
  | 0, s => (s, none)
  | n + 1, s =>
    let r := step E s
    match r.2 with
    | none => evolveAux E n r.1
    | some e => (r.1, some e)

/-- Python int() applied to a real quantity: truncation toward zero. -/
def pyInt (q : ℚ) : ℤ := if 0 ≤ q then ⌊q⌋ else ⌈q⌉

/-- QuantumSimulator.evolve: steps = int(total_time / dt), then that many
single steps. -/
noncomputable def evolve {N : ℕ}
    (E : Matrix (Fin N) (Fin N) ℂ → List ℂ → List ℂ)
    (total_time : ℚ) (s : QuantumSimulator N) :
    QuantumSimulator N × Option PyError :=
  evolveAux E (pyInt (total_time / s.dt)).toNat s

/-- QuantumSimulator.probability_density: np.abs(self.psi)**2. With psi
still None, np.abs(None) raises a TypeError. -/
noncomputable def probability_density {N : ℕ} (s : QuantumSimulator N) :
    Except PyError (List ℝ) :=
  match s.psi with
  | none => .error (.typeError absNoneMsg)
  | some p => .ok (p.map Complex.normSq)

/-- QuantumSimulator.expectation_position:
np.sum(self.x * self.probability_density()) * self.dx. -/
noncomputable def expectation_position {N : ℕ} (s : QuantumSimulator N) :
    Except PyError ℝ :=
  match probability_density s with
  | .error e => .error e
  | .ok d => .ok ((List.zipWith (fun a b => (a : ℝ) * b) s.x d).sum * (s.dx : ℝ))

/-- The array stored into self.V by QuantumSimulator.update_potential:
new_potential(self.x) if callable(new_potential) else new_potential. -/
def newV {N : ℕ} (s : QuantumSimulator N) (p : PotInput) : List ℚ :=
  match p with
  | .fn f => s.x.map f
  | .arr v => v

/-- QuantumSimulator.update_potential: assign self.V, then rebuild
self.H = self.T + diags(self.V, shape=(N, N)) and clear U_matrix. When
diags raises, V has already been replaced but H and U_matrix keep their
old values. -/
def update_potential {N : ℕ} (s : QuantumSimulator N) (p : PotInput) :
    QuantumSimulator N × Option PyError :=
  let V1 := newV s p
  match diagsQ V1 N with
  | .ok D => ({ s with V := V1, H := s.T + D, U_matrix := none }, none)
  | .error e => ({ s with V := V1 }, some e)

/-- A sequence of update_potential calls, keeping the state component. -/
def applyUpdates {N : ℕ} (ps : List PotInput) (s : QuantumSimulator N) :
    QuantumSimulator N :=
  ps.foldl (fun s1 p => (update_potential s1 p).1) s

/-- An update_potential argument whose Hamiltonian rebuild succeeds on a
state with a length-N grid: a function, or an array of length N. -/
abbrev validArg (N : ℕ) : PotInput → Prop
  | .fn _ => True
  | .arr v => v.length = N

/-- barrier_potential from src/simulator.py: zeros, with the strict window
(center - width/2, center + width/2) set to the barrier height. -/
def barrier_potential (x : List ℚ)
    (barrier_height barrier_width barrier_center : ℚ) : List ℚ :=
  x.map fun t =>
    if barrier_center - barrier_width / 2 < t ∧ t < barrier_center + barrier_width / 2
    then barrier_height else 0

/-- A small concrete simulator state (N = 2, unit box, dt = 1/1000) used
by the concrete instantiations below. -/
def simW : QuantumSimulator 2 := initState 1 1 1 (1 / 1000) 2 [0, 0]

/-- Conclusion of the history length law: after installation the history
has one entry; n direct steps give 1 + n entries; bulk evolution for
total time t performs exactly the floor of t / dt single steps, in order,
and ends with 1 + that many entries. -/
def C1Concl {N : ℕ} (E : Matrix (Fin N) (Fin N) ℂ → List ℂ → List ℂ)
    (s : QuantumSimulator N) (psi0 : List ℂ) (n : ℕ) (t : ℚ) : Prop :=
  let s1 := (set_initial_wavefunction s psi0).1
  s1.history.length = 1
  ∧ (stepN E n s1).history.length = 1 + n
  ∧ evolve E t s1 = (stepN E (⌊t / s.dt⌋).toNat s1, none)
  ∧ ((evolve E t s1).1).history.length = 1 + (⌊t / s.dt⌋).toNat

/-- Conclusion of the installer contract: no exception, the normalized
state is installed, the clock is reset, the history is exactly the one
installed snapshot, and the installed state has unit weighted norm. -/
def C2Concl {N : ℕ} (s : QuantumSimulator N) (psi0 : List ℂ) : Prop :=
  let nrm : ℝ := Real.sqrt (normSqSum psi0 * (s.dx : ℝ))
  let psi := psi0.map fun c => c / (nrm : ℂ)
  (set_initial_wavefunction s psi0).2 = none
  ∧ (set_initial_wavefunction s psi0).1.psi = some psi
  ∧ (set_initial_wavefunction s psi0).1.time = 0
  ∧ (set_initial_wavefunction s psi0).1.history = [psi]
  ∧ normSqSum psi * (s.dx : ℝ) = 1

/-- Conclusion of the amended uninitialized-state claim: stepping fails
with the designed uninitialized-state ValueError and returns the state
unchanged; both observable queries fail immediately, but with the
TypeError arising from np.abs(None). -/
def C3Concl {N : ℕ} (E : Matrix (Fin N) (Fin N) ℂ → List ℂ → List ℂ)
    (s : QuantumSimulator N) : Prop :=
  step E s = (s, some uninitializedError)
  ∧ probability_density s = .error (.typeError absNoneMsg)
  ∧ expectation_position s = .error (.typeError absNoneMsg)

/-- Conclusion of the amended dimension-mismatch claim: the installer
accepts an array of any length without error and installs a state of the
length of the input, while update_potential with a wrong-length array
raises only at the Hamiltonian rebuild, after the stored potential has
already been replaced; every other field is untouched. -/
def C4Concl {N : ℕ} (s : QuantumSimulator N) (psi0 : List ℂ) (v : List ℚ) : Prop :=
  (set_initial_wavefunction s psi0).2 = none
  ∧ ((set_initial_wavefunction s psi0).1.psi).map List.length = some psi0.length
  ∧ (update_potential s (.arr v)).2 = some (.valueError diagMsg)
  ∧ (update_potential s (.arr v)).1.V = v
  ∧ (update_potential s (.arr v)).1.H = s.H
  ∧ (update_potential s (.arr v)).1.T = s.T
  ∧ (update_potential s (.arr v)).1.U_matrix = s.U_matrix
  ∧ (update_potential s (.arr v)).1.psi = s.psi
  ∧ (update_potential s (.arr v)).1.time = s.time
  ∧ (update_potential s (.arr v)).1.history = s.history

/-- Conclusion of the amended construction-validation claim: with any
parameter values such that N is at least 2, m is nonzero and L is
nonzero, construction succeeds (no validation), storing the parameters
as given; N = 1 fails with ZeroDivisionError from dx, N = 0 with the
negative-dimension ValueError from np.ones, and L = 0 or m = 0 with
ZeroDivisionError from the kinetic coefficient. -/
def C5Concl (L m hbar dt : ℚ) (N : ℕ) : Prop :=
  init L m hbar dt N none = .ok (initState L m hbar dt N (List.replicate N 0))
  ∧ (initState L m hbar dt N (List.replicate N 0)).L = L
  ∧ (initState L m hbar dt N (List.replicate N 0)).m = m
  ∧ (initState L m hbar dt N (List.replicate N 0)).hbar = hbar
  ∧ (initState L m hbar dt N (List.replicate N 0)).dt = dt
  ∧ init L m hbar dt 1 none = .error .zeroDivisionError
  ∧ init L m hbar dt 0 none = .error (.valueError negDimMsg)
  ∧ init 0 m hbar dt N none = .error .zeroDivisionError
  ∧ init L 0 hbar dt N none = .error .zeroDivisionError

/-- Conclusion of the grid and kinetic-operator claim, for a state s
produced by construction: dx = L/(N-1); the grid has N entries, starts
at 0, ends at L, with consecutive spacing dx; the kinetic matrix has
2k on the main diagonal, -k on the two first off-diagonals and 0
elsewhere, with k = hbar^2 / (2 m dx^2). -/
def C6Concl (L m hbar : ℚ) {N : ℕ} (s : QuantumSimulator N) : Prop :=
  let dx := L / ((N : ℚ) - 1)
  let k := hbar ^ 2 / (2 * m * dx ^ 2)
  s.dx = dx
  ∧ s.x.length = N
  ∧ s.x.getD 0 0 = 0
  ∧ s.x.getD (N - 1) 0 = L
  ∧ (∀ i : ℕ, i + 1 < N → s.x.getD (i + 1) 0 - s.x.getD i 0 = dx)
  ∧ (∀ i : Fin N, s.T i i = 2 * k)
  ∧ (∀ i j : Fin N, (i : ℕ) + 1 = (j : ℕ) ∨ (j : ℕ) + 1 = (i : ℕ) → s.T i j = -k)
  ∧ (∀ i j : Fin N, (i : ℕ) ≠ (j : ℕ) → (i : ℕ) + 1 ≠ (j : ℕ) →
      (j : ℕ) + 1 ≠ (i : ℕ) → s.T i j = 0)

/-- Conclusion of the potential-update claim: a valid update raises no
exception, replaces the stored potential, rebuilds H as T plus the
diagonal of the new potential, and leaves T, psi, the clock and the
history unchanged; moreover any sequence of updates whatsoever leaves
T, psi, the clock and the history unchanged. -/
def C7Concl {N : ℕ} (s : QuantumSimulator N) (p : PotInput)
    (ps : List PotInput) : Prop :=
  (update_potential s p).2 = none
  ∧ (update_potential s p).1.V = newV s p
  ∧ (update_potential s p).1.H = s.T + Matrix.diagonal (fun i => (newV s p).getD i.val 0)
  ∧ (update_potential s p).1.T = s.T
  ∧ (update_potential s p).1.psi = s.psi
  ∧ (update_potential s p).1.time = s.time
  ∧ (update_potential s p).1.history = s.history
  ∧ (applyUpdates ps s).T = s.T
  ∧ (applyUpdates ps s).psi = s.psi
  ∧ (applyUpdates ps s).time = s.time
  ∧ (applyUpdates ps s).history = s.history

/-- Conclusion of the amended construction-potential claim: a None
potential defaults V to zeros, a potential function is applied to the
grid, H is T plus the diagonal of V, and a raw potential array passed to
construction fails with a TypeError because the code calls it. -/
def C8Concl (L m hbar dt : ℚ) (N : ℕ) (f : ℚ → ℚ) (v V0 : List ℚ) : Prop :=
  init L m hbar dt N none = .ok (initState L m hbar dt N (List.replicate N 0))
  ∧ init L m hbar dt N (some (.fn f)) = .ok (initState L m hbar dt N ((linspace L N).map f))
  ∧ (initState L m hbar dt N V0).H
      = (initState L m hbar dt N V0).T + Matrix.diagonal (fun i => V0.getD i.val 0)
  ∧ init L m hbar dt N (some (.arr v)) = .error (.typeError notCallableMsg)

/-- Conclusion of the zero-norm-input claim: installing the all-zero
array raises no exception, installs the (junk) state produced by the
division by the zero norm, and that installed state has weighted norm 0,
so it is not normalized. -/
def C10Concl {N : ℕ} (s : QuantumSimulator N) (k : ℕ) : Prop :=
  (set_initial_wavefunction s (List.replicate k 0)).2 = none
  ∧ (set_initial_wavefunction s (List.replicate k 0)).1.psi = some (List.replicate k 0)
  ∧ (∀ p, (set_initial_wavefunction s (List.replicate k 0)).1.psi = some p →
      normSqSum p * (s.dx : ℝ) = 0 ∧ normSqSum p * (s.dx : ℝ) ≠ 1)

lemma linspace_length (L : ℚ) (N : ℕ) : (linspace L N).length = N := by
  simp only [linspace, List.length_map, List.length_range]

lemma linspace_getD (L : ℚ) {N i : ℕ} (hi : i < N) :
    (linspace L N).getD i 0 = (i : ℚ) * (L / ((N : ℚ) - 1)) := by
  simp only [linspace, List.getD_eq_getElem?_getD, List.getElem?_map,
    List.getElem?_range hi, Option.map_some', Option.getD_some]

lemma getD_map_of_lt {α β : Type _} (f : α → β) (l : List α) (i : ℕ)
    (d : β) (d0 : α) (hi : i < l.length) :
    (l.map f).getD i d = f (l.getD i d0) := by
  simp only [List.getD_eq_getElem?_getD, List.getElem?_map,
    List.getElem?_eq_getElem hi, Option.map_some', Option.getD_some]

lemma kinetic_den_ne (L m : ℚ) {N : ℕ} (hN : 2 ≤ N) (hm : m ≠ 0)
    (hL : L ≠ 0) : 2 * m * (L / ((N : ℚ) - 1)) ^ 2 ≠ 0 := by
  have h1 : (1 : ℚ) < (N : ℚ) := by exact_mod_cast Nat.lt_of_lt_of_le one_lt_two hN
  have hden : ((N : ℚ) - 1) ≠ 0 := sub_ne_zero.mpr (ne_of_gt h1)
  exact mul_ne_zero (mul_ne_zero two_ne_zero hm)
    (pow_ne_zero 2 (div_ne_zero hL hden))

lemma init_none_eq (L m hbar dt : ℚ) {N : ℕ} (hN : 2 ≤ N) (hm : m ≠ 0)
    (hL : L ≠ 0) :
    init L m hbar dt N none = .ok (initState L m hbar dt N (List.replicate N 0)) := by
  unfold init
  rw [if_neg (by omega)]
  simp only [pyV]
  rw [if_neg (kinetic_den_ne L m hN hm hL), if_neg (by omega)]

lemma init_fn_eq (L m hbar dt : ℚ) {N : ℕ} (f : ℚ → ℚ) (hN : 2 ≤ N)
    (hm : m ≠ 0) (hL : L ≠ 0) :
    init L m hbar dt N (some (.fn f))
      = .ok (initState L m hbar dt N ((linspace L N).map f)) := by
  unfold init
  rw [if_neg (by omega)]
  simp only [pyV]
  rw [if_neg (kinetic_den_ne L m hN hm hL), if_neg (by omega)]

lemma init_arr_eq (L m hbar dt : ℚ) {N : ℕ} (v : List ℚ) (hN : N ≠ 1) :
    init L m hbar dt N (some (.arr v)) = .error (.typeError notCallableMsg) := by
  unfold init
  rw [if_neg hN]
  simp [pyV]

/-- C5 counterexample: construction with every parameter non-positive
(L = m = hbar = dt = -1) succeeds, raising no invalid-configuration
error at all. -/
theorem C5_counterexample :
    okB (init (-1) (-1) (-1) (-1) 500 none) = true := by
  rw [init_none_eq (-1) (-1) (-1) (-1) (by omega) (by norm_num) (by norm_num)]
  rfl

/-- C5 amended: construction performs no validation of the sign of L, m,
hbar or dt (any values with N at least 2, m nonzero and L nonzero are
accepted and stored as given); N = 1 fails with a ZeroDivisionError from
computing dx, N = 0 with the negative-dimension ValueError from building
the stencil, and L = 0 or m = 0 with a ZeroDivisionError from the
kinetic coefficient; none of these failures is a designed
invalid-configuration check. -/
theorem C5_no_validation (L m hbar dt : ℚ) (N : ℕ) (hN : 2 ≤ N)
    (hm : m ≠ 0) (hL : L ≠ 0) : C5Concl L m hbar dt N := by
  have hN1 : N ≠ 1 := by omega
  refine ⟨init_none_eq L m hbar dt hN hm hL, rfl, rfl, rfl, rfl, ?_, ?_, ?_, ?_⟩
  · simp [init]
  · simp [init, pyV, hm, hL, mul_eq_zero, pow_eq_zero_iff]
  · simp [init, pyV, hN1]
  · simp [init, pyV, hN1]

/-- C5 witness for the amended theorem: the hypotheses hold at
L = m = hbar = dt = -1, N = 500. -/
theorem C5_no_validation_witness :
    2 ≤ 500 ∧ (-1 : ℚ) ≠ 0 ∧ C5Concl (-1) (-1) (-1) (-1) 500 :=
  ⟨by omega, by norm_num, C5_no_validation (-1) (-1) (-1) (-1) 500 (by omega)
    (by norm_num) (by norm_num)⟩

/-- C8 counterexample: passing a potential array (here of the correct
length N = 2) to construction does not store it as V; it raises a
TypeError because the constructor calls the potential on the grid. -/
theorem C8_counterexample :
    init 1 1 1 (1 / 1000) 2 (some (.arr [0, 0]))
        = .error (.typeError notCallableMsg)
      ∧ okB (init 1 1 1 (1 / 1000) 2 (some (.arr [0, 0]))) = false := by
  constructor
  · exact init_arr_eq 1 1 1 (1 / 1000) [0, 0] (by omega)
  · rw [init_arr_eq 1 1 1 (1 / 1000) [0, 0] (by omega)]
    rfl

/-- C8 amended: construction with no potential defaults V to the all-zero
array of length N and with a potential function stores the function
applied to the grid; in both cases H = T + diag(V); a raw potential
array passed at construction instead fails with a TypeError, since the
code invokes the potential as a callable. -/
theorem C8_construction_potential (L m hbar dt : ℚ) (N : ℕ) (f : ℚ → ℚ)
    (v V0 : List ℚ) (hN : 2 ≤ N) (hm : m ≠ 0) (hL : L ≠ 0) :
    C8Concl L m hbar dt N f v V0 :=
  ⟨init_none_eq L m hbar dt hN hm hL, init_fn_eq L m hbar dt f hN hm hL,
    rfl, init_arr_eq L m hbar dt v (by omega)⟩

/-- C8 witness: concrete instantiation of the amended construction
claim at L = m = hbar = 1, dt = 1/1000, N = 2. -/
theorem C8_construction_potential_witness :
    2 ≤ 2 ∧ (1 : ℚ) ≠ 0 ∧ C8Concl 1 1 1 (1 / 1000) 2 (fun t => t + 3) [4, 5] [6, 7] :=
  ⟨le_refl 2, one_ne_zero, C8_construction_potential 1 1 1 (1 / 1000) 2
    (fun t => t + 3) [4, 5] [6, 7] (le_refl 2) one_ne_zero one_ne_zero⟩

/-- C6: for any state produced by construction (any potential argument),
the grid is the N uniformly spaced points over [0, L] with spacing
dx = L/(N-1), and the kinetic operator is tridiagonal with 2k on the
main diagonal and -k on the first off-diagonals, k = hbar^2/(2 m dx^2). -/
theorem C6_grid_kinetic (L m hbar dt : ℚ) {N : ℕ} (pot : Option PotInput)
    (s : QuantumSimulator N) (hN : 2 ≤ N)
    (h : init L m hbar dt N pot = .ok s) : C6Concl L m hbar s := by
  have hde : (N : ℚ) - 1 ≠ 0 := by
    have : (1 : ℚ) < (N : ℚ) := by exact_mod_cast Nat.lt_of_lt_of_le one_lt_two hN
    exact sub_ne_zero.mpr (ne_of_gt this)
  obtain ⟨V0, rfl⟩ : ∃ V0, s = initState L m hbar dt N V0 := by
    unfold init at h
    rw [if_neg (by omega : N ≠ 1)] at h
    rcases hpv : pyV pot (linspace L N) N with e | V0
    · simp only [hpv] at h
      exact absurd h (by simp)
    · simp only [hpv] at h
      by_cases hz : 2 * m * (L / ((N : ℚ) - 1)) ^ 2 = 0
      · rw [if_pos hz] at h
        exact absurd h (by simp)
      · rw [if_neg hz, if_neg (by omega : N ≠ 0)] at h
        refine ⟨V0, ?_⟩
        injection h with h2
        exact h2.symm
  refine ⟨rfl, linspace_length L N, ?_, ?_, ?_, ?_, ?_, ?_⟩
  · show (linspace L N).getD 0 0 = 0
    rw [linspace_getD L (by omega)]
    norm_num
  · show (linspace L N).getD (N - 1) 0 = L
    rw [linspace_getD L (by omega)]
    have : ((N - 1 : ℕ) : ℚ) = (N : ℚ) - 1 := by
      push_cast [Nat.cast_sub (by omega : 1 ≤ N)]
      ring
    rw [this]
    field_simp
  · intro i hi
    show (linspace L N).getD (i + 1) 0 - (linspace L N).getD i 0 = _
    rw [linspace_getD L hi, linspace_getD L (by omega)]
    push_cast
    ring
  · intro i
    show ((-hbar ^ 2 / (2 * m * (L / ((N : ℚ) - 1)) ^ 2)) • tridiag N) i i = _
    simp only [Matrix.smul_apply, tridiag, Matrix.of_apply, smul_eq_mul,
      eq_self_iff_true, if_true]
    ring
  · intro i j hij
    show ((-hbar ^ 2 / (2 * m * (L / ((N : ℚ) - 1)) ^ 2)) • tridiag N) i j = _
    have hne : (i : ℕ) ≠ (j : ℕ) := by omega
    simp only [Matrix.smul_apply, tridiag, Matrix.of_apply, smul_eq_mul]
    rw [if_neg hne, if_pos hij]
    ring
  · intro i j h1 h2 h3
    show ((-hbar ^ 2 / (2 * m * (L / ((N : ℚ) - 1)) ^ 2)) • tridiag N) i j = _
    simp only [Matrix.smul_apply, tridiag, Matrix.of_apply, smul_eq_mul]
    rw [if_neg h1, if_neg (not_or.mpr ⟨h2, h3⟩)]
    ring

/-- C6 witness: the hypotheses of the grid and kinetic-operator theorem
hold at the concrete construction with L = m = hbar = 1, dt = 1/1000,
N = 2 and no potential. -/
theorem C6_grid_kinetic_witness :
    2 ≤ 2
    ∧ init 1 1 1 (1 / 1000) 2 none
        = .ok (initState 1 1 1 (1 / 1000) 2 (List.replicate 2 0))
    ∧ C6Concl 1 1 1 (initState 1 1 1 (1 / 1000) 2 (List.replicate 2 0)) :=
  ⟨le_refl 2, init_none_eq 1 1 1 (1 / 1000) (le_refl 2) one_ne_zero one_ne_zero,
    C6_grid_kinetic 1 1 1 (1 / 1000) none _ (le_refl 2)
      (init_none_eq 1 1 1 (1 / 1000) (le_refl 2) one_ne_zero one_ne_zero)⟩

/-- C9: on the grid of 500 uniform points over [0, 1], the barrier
generator with height 50, width 0.05 and center 0.5 yields exactly 50 at
a grid point strictly inside (0.475, 0.525) and exactly 0 at every other
grid point. -/
theorem C9_barrier (i : ℕ) (hi : i < 500) :
    (barrier_potential (linspace 1 500) 50 (5 / 100) (1 / 2)).getD i 0
      = if (0.475 : ℚ) < (linspace 1 500).getD i 0
            ∧ (linspace 1 500).getD i 0 < (0.525 : ℚ)
        then 50 else 0 := by
  unfold barrier_potential
  rw [getD_map_of_lt _ _ i 0 0 (by rw [linspace_length]; omega)]
  have hlo : (1 : ℚ) / 2 - (5 / 100) / 2 = 0.475 := by norm_num
  have hhi : (1 : ℚ) / 2 + (5 / 100) / 2 = 0.525 := by norm_num
  rw [hlo, hhi]

lemma normSqSum_cons (c : ℂ) (l : List ℂ) :
    normSqSum (c :: l) = Complex.normSq c + normSqSum l := by
  simp [normSqSum]

lemma normSqSum_nonneg (l : List ℂ) : 0 ≤ normSqSum l := by
  induction l with
  | nil => simp [normSqSum]
  | cons c l ih =>
    rw [normSqSum_cons]
    exact add_nonneg (Complex.normSq_nonneg c) ih

lemma normSqSum_pos (l : List ℂ) (h : ∃ c ∈ l, c ≠ 0) : 0 < normSqSum l := by
  induction l with
  | nil => simp at h
  | cons c l ih =>
    rw [normSqSum_cons]
    rcases h with ⟨d, hd, hdne⟩
    rcases List.mem_cons.mp hd with rfl | hdl
    · have h1 := Complex.normSq_pos.mpr hdne
      have h2 := normSqSum_nonneg l
      linarith
    · have h1 := ih ⟨d, hdl, hdne⟩
      have h2 := Complex.normSq_nonneg c
      linarith

lemma normSqSum_map_div (l : List ℂ) (a : ℂ) :
    normSqSum (l.map fun c => c / a) = normSqSum l / Complex.normSq a := by
  induction l with
  | nil => simp [normSqSum]
  | cons c l ih =>
    rw [List.map_cons, normSqSum_cons, normSqSum_cons, ih, map_div₀, add_div]

lemma step_some {N : ℕ} (E : Matrix (Fin N) (Fin N) ℂ → List ℂ → List ℂ)
    (s : QuantumSimulator N) (p : List ℂ) (h : s.psi = some p) :
    step E s = ({ s with
        psi := some (E (propagator_arg s) p)
        time := s.time + s.dt
        history := s.history ++ [E (propagator_arg s) p] }, none) := by
  simp only [step, h]

lemma stepN_props {N : ℕ} (E : Matrix (Fin N) (Fin N) ℂ → List ℂ → List ℂ)
    (n : ℕ) : ∀ s : QuantumSimulator N, s.psi.isSome →
      (stepN E n s).psi.isSome
      ∧ (stepN E n s).history.length = s.history.length + n := by
  induction n with
  | zero =>
    intro s h
    exact ⟨h, by simp [stepN]⟩
  | succ n ih =>
    intro s h
    obtain ⟨p, hp⟩ := Option.isSome_iff_exists.mp h
    have h1 := step_some E s p hp
    have hs1 : (step E s).1.psi.isSome := by rw [h1]; rfl
    have hh1 : (step E s).1.history.length = s.history.length + 1 := by
      rw [h1]
      simp
    obtain ⟨ih1, ih2⟩ := ih (step E s).1 hs1
    constructor
    · simp only [stepN]
      exact ih1
    · simp only [stepN]
      rw [ih2, hh1]
      ring

lemma evolveAux_eq {N : ℕ} (E : Matrix (Fin N) (Fin N) ℂ → List ℂ → List ℂ)
    (n : ℕ) : ∀ s : QuantumSimulator N, s.psi.isSome →
      evolveAux E n s = (stepN E n s, none) := by
  induction n with
  | zero =>
    intro s h
    simp [evolveAux, stepN]
  | succ n ih =>
    intro s h
    obtain ⟨p, hp⟩ := Option.isSome_iff_exists.mp h
    have h1 := step_some E s p hp
    have hs1 : (step E s).1.psi.isSome := by rw [h1]; rfl
    have h2 : (step E s).2 = none := by rw [h1]
    simp only [evolveAux, stepN]
    simp only [h2]
    exact ih (step E s).1 hs1

lemma update_frame {N : ℕ} (s : QuantumSimulator N) (p : PotInput) :
    (update_potential s p).1.T = s.T
    ∧ (update_potential s p).1.psi = s.psi
    ∧ (update_potential s p).1.time = s.time
    ∧ (update_potential s p).1.history = s.history := by
  cases hD : diagsQ (newV s p) N with
  | ok D => simp [update_potential, hD]
  | error e => simp [update_potential, hD]

lemma applyUpdates_frame {N : ℕ} (ps : List PotInput) :
    ∀ s : QuantumSimulator N,
      (applyUpdates ps s).T = s.T
      ∧ (applyUpdates ps s).psi = s.psi
      ∧ (applyUpdates ps s).time = s.time
      ∧ (applyUpdates ps s).history = s.history := by
  induction ps with
  | nil =>
    intro s
    exact ⟨rfl, rfl, rfl, rfl⟩
  | cons p ps ih =>
    intro s
    obtain ⟨u1, u2, u3, u4⟩ := update_frame s p
    obtain ⟨i1, i2, i3, i4⟩ := ih (update_potential s p).1
    exact ⟨i1.trans u1, i2.trans u2, i3.trans u3, i4.trans u4⟩

/-- C1: after installing any initial state the history has exactly one
entry; after n further single steps it has 1 + n entries; bulk evolution
for a total time t performs exactly the floor of t / dt single steps, in
order, with no extra partial step, and ends with 1 + that many entries. -/
theorem C1_history_law {N : ℕ} (E : Matrix (Fin N) (Fin N) ℂ → List ℂ → List ℂ)
    (s : QuantumSimulator N) (psi0 : List ℂ) (n : ℕ) (t : ℚ)
    (hdt : 0 < s.dt) (ht : 0 ≤ t) : C1Concl E s psi0 n t := by
  set s1 := (set_initial_wavefunction s psi0).1 with hs1
  have hsome : s1.psi.isSome := rfl
  have hhist : s1.history.length = 1 := rfl
  have hfloor : pyInt (t / s1.dt) = ⌊t / s.dt⌋ := by
    have hdt1 : s1.dt = s.dt := rfl
    rw [hdt1, pyInt, if_pos (div_nonneg ht hdt.le)]
  have h3 : evolve E t s1 = (stepN E (⌊t / s.dt⌋).toNat s1, none) := by
    show evolveAux E (pyInt (t / s1.dt)).toNat s1 = _
    rw [hfloor]
    exact evolveAux_eq E _ s1 hsome
  refine ⟨hhist, ?_, h3, ?_⟩
  · rw [(stepN_props E n s1 hsome).2, hhist]
  · simp only [h3]
    rw [(stepN_props E (⌊t / s.dt⌋).toNat s1 hsome).2, hhist]

/-- C1 witness: concrete instantiation with the identity in place of the
external exponential routine, dt = 1/1000, two direct steps and a bulk
evolution for total time 3/1000. -/
theorem C1_history_law_witness :
    0 < simW.dt ∧ 0 ≤ (3 / 1000 : ℚ)
      ∧ C1Concl (fun _ p => p) simW [1, 0] 2 (3 / 1000) :=
  ⟨by norm_num [simW, initState], by norm_num,
    C1_history_law (fun _ p => p) simW [1, 0] 2 (3 / 1000)
      (by norm_num [simW, initState]) (by norm_num)⟩

/-- C2: installing a length-N array with a nonzero entry (on a state with
positive dx) raises nothing, installs exactly the array divided by the
square root of (sum of squared moduli times dx), resets the clock to 0,
resets the history to that single snapshot, and the installed state has
weighted norm exactly 1. -/
theorem C2_normalization {N : ℕ} (s : QuantumSimulator N) (psi0 : List ℂ)
    (_hlen : psi0.length = N) (hdx : 0 < s.dx) (h0 : ∃ c ∈ psi0, c ≠ 0) :
    C2Concl s psi0 := by
  have hdxR : (0 : ℝ) < (s.dx : ℝ) := by exact_mod_cast hdx
  have hS : 0 < normSqSum psi0 * (s.dx : ℝ) :=
    mul_pos (normSqSum_pos psi0 h0) hdxR
  have hne : normSqSum psi0 ≠ 0 := (normSqSum_pos psi0 h0).ne.symm
  refine ⟨rfl, rfl, rfl, rfl, ?_⟩
  rw [normSqSum_map_div, Complex.normSq_ofReal, Real.mul_self_sqrt hS.le]
  field_simp

/-- C2 witness: the hypotheses hold for the input [1, 0] on the concrete
N = 2 simulator, whose dx is 1. -/
theorem C2_normalization_witness :
    ([1, 0] : List ℂ).length = 2 ∧ 0 < simW.dx
      ∧ (∃ c ∈ ([1, 0] : List ℂ), c ≠ 0) ∧ C2Concl simW [1, 0] :=
  ⟨rfl, by norm_num [simW, initState], ⟨1, by simp⟩,
    C2_normalization simW [1, 0] rfl (by norm_num [simW, initState]) ⟨1, by simp⟩⟩

/-- C3 counterexample: on a freshly constructed simulator (psi = None)
the probability-density and position-expectation queries fail with the
TypeError coming from np.abs(None), which is not the designed
uninitialized-state error that step raises. -/
theorem C3_counterexample :
    probability_density simW = .error (.typeError absNoneMsg)
      ∧ expectation_position simW = .error (.typeError absNoneMsg)
      ∧ PyError.typeError absNoneMsg ≠ uninitializedError :=
  ⟨rfl, rfl, by decide⟩

/-- C3 amended: before any wavefunction is installed, step fails with
the designed uninitialized-state ValueError and returns the state
unchanged, and both observable queries fail immediately as well — but
with the TypeError produced by applying abs to the missing state; no
state is changed in any of the three cases. -/
theorem C3_uninitialized {N : ℕ}
    (E : Matrix (Fin N) (Fin N) ℂ → List ℂ → List ℂ)
    (s : QuantumSimulator N) (h : s.psi = none) : C3Concl E s := by
  refine ⟨?_, ?_, ?_⟩
  · simp only [step, h]
  · simp only [probability_density, h]
  · simp only [expectation_position, probability_density, h]

/-- C3 witness: the freshly constructed simulator has psi = None. -/
theorem C3_uninitialized_witness :
    simW.psi = none ∧ C3Concl (fun _ p => p) simW :=
  ⟨rfl, C3_uninitialized (fun _ p => p) simW rfl⟩

/-- C4 counterexample: installing an initial array of length 3 into the
N = 2 simulator raises no dimension-mismatch error at all and does
mutate the engine state (psi goes from None to an installed state). -/
theorem C4_counterexample :
    (set_initial_wavefunction simW [1, 1, 1]).2 = none
      ∧ (set_initial_wavefunction simW [1, 1, 1]).1.psi ≠ none
      ∧ simW.psi = none :=
  ⟨rfl, by simp [set_initial_wavefunction], rfl⟩

/-- C4 amended: set_initial_wavefunction performs no length check — an
array of any length is accepted without error and installed (the
installed state has the length of the input, not N) — while
update_potential with a wrong-length array does raise a ValueError, but
only at the Hamiltonian rebuild, after the stored potential has already
been replaced by the wrong-length array; H, T, U_matrix, psi, the clock
and the history are untouched by the failed update. -/
theorem C4_no_length_check {N : ℕ} (s : QuantumSimulator N)
    (psi0 : List ℂ) (v : List ℚ) (hv : v.length ≠ N) : C4Concl s psi0 v := by
  have hupd : update_potential s (.arr v)
      = ({ s with V := v }, some (.valueError diagMsg)) := by
    simp [update_potential, newV, diagsQ, hv]
  refine ⟨rfl, by simp [set_initial_wavefunction], ?_, ?_, ?_, ?_, ?_, ?_, ?_, ?_⟩
  all_goals rw [hupd]

/-- C4 witness: concrete instantiation with a length-3 array on the
N = 2 simulator. -/
theorem C4_no_length_check_witness :
    ([5, 7, 9] : List ℚ).length ≠ 2 ∧ C4Concl simW [1, 1, 1] [5, 7, 9] :=
  ⟨by decide, C4_no_length_check simW [1, 1, 1] [5, 7, 9] (by decide)⟩

/-- C7: updating the potential with a function of the grid or a length-N
array raises nothing, replaces V, rebuilds H as T plus the diagonal of
the new potential, and leaves T, psi, the clock and the history
unchanged; moreover any finite sequence of updates whatsoever leaves T,
psi, the clock and the history unchanged. -/
theorem C7_potential_update {N : ℕ} (s : QuantumSimulator N) (p : PotInput)
    (ps : List PotInput) (hx : s.x.length = N) (hp : validArg N p) :
    C7Concl s p ps := by
  have hlen : (newV s p).length = N := by
    cases p with
    | arr v => exact hp
    | fn f => simp [newV, hx]
  have hok : update_potential s p
      = ({ s with
            V := newV s p
            H := s.T + Matrix.diagonal (fun i => (newV s p).getD i.val 0)
            U_matrix := none }, none) := by
    simp [update_potential, diagsQ, hlen]
  obtain ⟨f1, f2, f3, f4⟩ := applyUpdates_frame ps s
  exact ⟨by rw [hok], by rw [hok], by rw [hok], by rw [hok], by rw [hok],
    by rw [hok], by rw [hok], f1, f2, f3, f4⟩

/-- C7 witness: a length-2 array update followed by a function update on
the concrete N = 2 simulator. -/
theorem C7_potential_update_witness :
    simW.x.length = 2 ∧ validArg 2 (.arr [5, 7])
      ∧ C7Concl simW (.arr [5, 7]) [.arr [5, 7], .fn (fun t => t + 1)] :=
  ⟨by simp [simW, initState, linspace_length], rfl,
    C7_potential_update simW (.arr [5, 7]) [.arr [5, 7], .fn (fun t => t + 1)]
      (by simp [simW, initState, linspace_length]) rfl⟩

/-- C10: installing the all-zero array raises no error; the division by
the zero norm proceeds (in this real-number model it produces the zero
vector, the counterpart of the non-finite array numpy produces), and the
installed state has weighted norm 0, i.e. it is not normalized — so the
normalization postcondition indeed needs the nonzero-norm precondition. -/
theorem C10_zero_norm {N : ℕ} (s : QuantumSimulator N) (k : ℕ) :
    C10Concl s k := by
  have hzero : normSqSum (List.replicate k (0 : ℂ)) = 0 := by
    simp [normSqSum, List.map_replicate, List.sum_replicate]
  have hpsi : (set_initial_wavefunction s (List.replicate k 0)).1.psi
      = some (List.replicate k 0) := by
    show some ((List.replicate k (0 : ℂ)).map _) = _
    rw [List.map_replicate]
    simp
  refine ⟨rfl, hpsi, ?_⟩
  intro p hp
  rw [hpsi] at hp
  injection hp with hp2
  rw [← hp2, hzero, zero_mul]
  exact ⟨rfl, by norm_num⟩

/-- C9 witness: at grid index 250 (x = 250/499, inside the window) the
barrier value is 50. -/
theorem C9_barrier_witness :
    250 < 500
    ∧ (barrier_potential (linspace 1 500) 50 (5 / 100) (1 / 2)).getD 250 0
        = if (0.475 : ℚ) < (linspace 1 500).getD 250 0
              ∧ (linspace 1 500).getD 250 0 < (0.525 : ℚ)
          then 50 else 0 :=
  ⟨by omega, C9_barrier 250 (by omega)⟩

end PBox
